import Mathlib

/-!
Verification development for the local-LLM provider core:
the model catalog (task classification, scoring, recommendation),
the model selection service (recommendation policy, confidence model),
the provider adapter (format conversion, retry algorithm), and the
concrete backend provider (streaming parser, model-presence guarantee,
byte formatting).  Each definition is a shallow embedding of the
corresponding source function.
-/

/-- Whether `pat` occurs as a contiguous substring of `hay`: the meaning
of JS `String.prototype.includes`, phrased structurally so the kernel can
evaluate it. -/
def containsSub : List Char → List Char → Bool
  | [], pat => pat.isEmpty
  | c :: rest, pat => pat.isPrefixOf (c :: rest) || containsSub rest pat

/-- `s.includes(pat)` on strings. -/
def strContains (s pat : String) : Bool := containsSub s.data pat.data

/-- `s.startsWith(pat)` on strings. -/
def strStartsWith (s pat : String) : Bool := pat.data.isPrefixOf s.data

/-- `s.toLowerCase()` on strings: lowercase each character. -/
def strToLower (s : String) : String := ⟨s.data.map Char.toLower⟩

/-- `s.length` on strings: the number of characters. -/
def strLength (s : String) : Nat := s.data.length

/-- Project context passed to the task classifier and selection service. -/
structure ProjectContext where
  hasCodeFiles : Bool
  primaryLanguage : Option String
  projectType : Option String
  fileTypes : Option (List String)
deriving Repr, DecidableEq

/-- The ten task categories of the model catalog (`TaskType`). -/
inductive TaskType where
  | code_generation
  | code_review
  | debugging
  | documentation
  | general_chat
  | file_analysis
  | project_planning
  | quick_questions
  | complex_reasoning
  | creative_writing
deriving Repr, DecidableEq

/-- Strength tags a catalog model can carry (`ModelStrength`). -/
inductive ModelStrength where
  | coding
  | general
  | lightweight
  | math
  | reasoning
  | conversation
  | analysis
  | creative
  | multilingual
deriving Repr, DecidableEq

/-- Embedding of `analyzeTaskType` from the model catalog: deterministic,
priority-ordered keyword rules over the lowercased prompt.  The creative
branch reproduces the source condition literally: the exclusion of
"code" is attached (by operator precedence) to the "generate" keyword
only. -/
def analyzeTaskType (prompt : String) (projectContext : Option ProjectContext) :
    TaskType :=
  let lowerPrompt := strToLower prompt
  if strContains lowerPrompt "debug" || strContains lowerPrompt "error" ||
      strContains lowerPrompt "fix" then
    .debugging
  else if strContains lowerPrompt "code" || strContains lowerPrompt "function" ||
      strContains lowerPrompt "implement" || strContains lowerPrompt "write" then
    .code_generation
  else if strContains lowerPrompt "review" || strContains lowerPrompt "improve" ||
      strContains lowerPrompt "refactor" then
    .code_review
  else if strContains lowerPrompt "document" || strContains lowerPrompt "readme" ||
      strContains lowerPrompt "comment" then
    .documentation
  else if strContains lowerPrompt "analyze" || strContains lowerPrompt "examine" ||
      strContains lowerPrompt "explain" then
    (match projectContext with
     | some pc => if pc.hasCodeFiles then .file_analysis else .general_chat
     | none => .general_chat)
  else if decide (strLength lowerPrompt < 50) && (strContains lowerPrompt "?" ||
      strStartsWith lowerPrompt "what" || strStartsWith lowerPrompt "how" ||
      strStartsWith lowerPrompt "why") then
    .quick_questions
  else if strContains lowerPrompt "write" || strContains lowerPrompt "create" ||
      (strContains lowerPrompt "generate" && !strContains lowerPrompt "code") then
    .creative_writing
  else if strContains lowerPrompt "plan" || strContains lowerPrompt "architecture" ||
      strContains lowerPrompt "design" then
    .project_planning
  else if strContains lowerPrompt "calculate" || strContains lowerPrompt "solve" ||
      strContains lowerPrompt "math" then
    .complex_reasoning
  else
    .general_chat

/-- The claim's reading of the classifier rules: identical rule order and
keyword sets, but with the creative-writing rule stated as "creative
keywords, excluding prompts that also match code": the "code" exclusion
applies to the whole keyword disjunction. -/
def analyzeTaskTypeClaim (prompt : String) (projectContext : Option ProjectContext) :
    TaskType :=
  let lowerPrompt := strToLower prompt
  if strContains lowerPrompt "debug" || strContains lowerPrompt "error" ||
      strContains lowerPrompt "fix" then
    .debugging
  else if strContains lowerPrompt "code" || strContains lowerPrompt "function" ||
      strContains lowerPrompt "implement" || strContains lowerPrompt "write" then
    .code_generation
  else if strContains lowerPrompt "review" || strContains lowerPrompt "improve" ||
      strContains lowerPrompt "refactor" then
    .code_review
  else if strContains lowerPrompt "document" || strContains lowerPrompt "readme" ||
      strContains lowerPrompt "comment" then
    .documentation
  else if strContains lowerPrompt "analyze" || strContains lowerPrompt "examine" ||
      strContains lowerPrompt "explain" then
    (match projectContext with
     | some pc => if pc.hasCodeFiles then .file_analysis else .general_chat
     | none => .general_chat)
  else if decide (strLength lowerPrompt < 50) && (strContains lowerPrompt "?" ||
      strStartsWith lowerPrompt "what" || strStartsWith lowerPrompt "how" ||
      strStartsWith lowerPrompt "why") then
    .quick_questions
  else if (strContains lowerPrompt "write" || strContains lowerPrompt "create" ||
      strContains lowerPrompt "generate") && !strContains lowerPrompt "code" then
    .creative_writing
  else if strContains lowerPrompt "plan" || strContains lowerPrompt "architecture" ||
      strContains lowerPrompt "design" then
    .project_planning
  else if strContains lowerPrompt "calculate" || strContains lowerPrompt "solve" ||
      strContains lowerPrompt "math" then
    .complex_reasoning
  else
    .general_chat

/-- Claim C1: `analyzeTaskType` evaluates its classification rules in exactly
the claimed priority order — debugging, code generation, review,
documentation, analysis (disambiguated by code-file presence), short
question, creative writing (excluding prompts that also match "code"),
planning, math/reasoning, default general chat — returning the result of
the first matching rule.  Stated as extensional equality with the rule
list written exactly as the claim words it. -/
theorem analyzeTaskType_follows_claimed_rule_order :
    ∀ (prompt : String) (projectContext : Option ProjectContext),
      analyzeTaskType prompt projectContext =
        analyzeTaskTypeClaim prompt projectContext := by
  intro p ctx
  unfold analyzeTaskType analyzeTaskTypeClaim
  cases h : strContains (strToLower p) "code" <;> simp [h]

/-- 3-point speed scale of a catalog model. -/
inductive Speed where
  | fast
  | medium
  | slow
deriving Repr, DecidableEq

/-- 3-point quality scale of a catalog model. -/
inductive Quality where
  | basic
  | good
  | excellent
deriving Repr, DecidableEq

/-- 3-point memory-usage scale of a catalog model. -/
inductive MemoryUsage where
  | low
  | medium
  | high
deriving Repr, DecidableEq

/-- Performance triad of a catalog model. -/
structure Performance where
  speed : Speed
  quality : Quality
  memoryUsage : MemoryUsage
deriving Repr, DecidableEq

/-- Embedding of `ModelCapabilities`: one static catalog entry. -/
structure ModelCapabilities where
  name : String
  displayName : String
  sizeGB : ℚ
  performance : Performance
  strengths : List ModelStrength
  description : String
  useCases : List String
deriving Repr, DecidableEq

/-- Embedding of `MODEL_CATALOG`: the six static catalog entries. -/
def MODEL_CATALOG : List ModelCapabilities :=
  [ { name := "qwen3-coder:latest"
    , displayName := "Qwen3 Coder"
    , sizeGB := 18
    , performance := { speed := .medium, quality := .excellent, memoryUsage := .high }
    , strengths := [.coding, .analysis, .reasoning]
    , description := "Specialized coding model with excellent programming capabilities"
    , useCases := [ "Code generation and refactoring", "Complex debugging"
                  , "Code architecture planning", "Technical documentation" ] }
  , { name := "gpt-oss:latest"
    , displayName := "GPT-OSS 20B"
    , sizeGB := 13
    , performance := { speed := .slow, quality := .excellent, memoryUsage := .high }
    , strengths := [.general, .reasoning, .creative, .coding]
    , description := "Large general-purpose model with strong reasoning and creative capabilities"
    , useCases := [ "Complex problem solving", "Creative writing and ideation"
                  , "Advanced code generation", "Research and analysis" ] }
  , { name := "llama3.1:latest"
    , displayName := "Llama 3.1"
    , sizeGB := 49/10
    , performance := { speed := .medium, quality := .good, memoryUsage := .medium }
    , strengths := [.general, .conversation, .coding, .reasoning]
    , description := "Balanced general-purpose model, good for most tasks"
    , useCases := [ "General conversations", "Basic to intermediate coding"
                  , "File analysis", "Documentation help" ] }
  , { name := "gemma3:4b"
    , displayName := "Gemma 3 4B"
    , sizeGB := 33/10
    , performance := { speed := .medium, quality := .good, memoryUsage := .medium }
    , strengths := [.math, .reasoning, .general]
    , description := "Efficient model with strong mathematical and logical reasoning"
    , useCases := [ "Mathematical calculations", "Logical problem solving"
                  , "Data analysis", "Quick reasoning tasks" ] }
  , { name := "phi3:mini"
    , displayName := "Phi-3 Mini"
    , sizeGB := 11/5
    , performance := { speed := .fast, quality := .good, memoryUsage := .low }
    , strengths := [.lightweight, .conversation, .reasoning]
    , description := "Compact but capable model, excellent for quick responses"
    , useCases := [ "Quick questions and answers", "Basic code assistance"
                  , "Fast iterations", "Low-resource environments" ] }
  , { name := "tinyllama:latest"
    , displayName := "TinyLlama"
    , sizeGB := 3/5
    , performance := { speed := .fast, quality := .basic, memoryUsage := .low }
    , strengths := [.lightweight, .conversation]
    , description := "Ultra-lightweight model for basic tasks and quick responses"
    , useCases := [ "Simple questions", "Basic text processing"
                  , "Ultra-fast responses", "Resource-constrained scenarios" ] } ]

/-- A `Partial<ModelCapabilities>` as used by the task-preference table:
only the strengths and performance fields are ever populated. -/
structure TaskPreferences where
  strengths : Option (List ModelStrength)
  performance : Option Performance
deriving Repr, DecidableEq

/-- Embedding of `TASK_TO_MODEL_PREFERENCES`: preferred model
characteristics per task type. -/
def TASK_TO_MODEL_PREFERENCES : TaskType → TaskPreferences
  | .code_generation =>
    { strengths := some [.coding]
    , performance := some { speed := .medium, quality := .excellent, memoryUsage := .medium } }
  | .code_review =>
    { strengths := some [.coding, .analysis]
    , performance := some { speed := .medium, quality := .good, memoryUsage := .medium } }
  | .debugging =>
    { strengths := some [.coding, .reasoning]
    , performance := some { speed := .medium, quality := .excellent, memoryUsage := .medium } }
  | .documentation =>
    { strengths := some [.general, .coding]
    , performance := some { speed := .medium, quality := .good, memoryUsage := .medium } }
  | .general_chat =>
    { strengths := some [.general, .conversation]
    , performance := some { speed := .fast, quality := .good, memoryUsage := .low } }
  | .file_analysis =>
    { strengths := some [.analysis, .coding]
    , performance := some { speed := .medium, quality := .good, memoryUsage := .medium } }
  | .project_planning =>
    { strengths := some [.reasoning, .general]
    , performance := some { speed := .medium, quality := .excellent, memoryUsage := .medium } }
  | .quick_questions =>
    { strengths := some [.lightweight]
    , performance := some { speed := .fast, quality := .basic, memoryUsage := .low } }
  | .complex_reasoning =>
    { strengths := some [.reasoning, .math]
    , performance := some { speed := .slow, quality := .excellent, memoryUsage := .high } }
  | .creative_writing =>
    { strengths := some [.creative, .general]
    , performance := some { speed := .medium, quality := .excellent, memoryUsage := .medium } }

/-- Embedding of the catalog's `scoreModelForTask`:
3 points per matching strength tag, 2 for a quality match, 1 for a
speed match. -/
def scoreModelForTask (model : ModelCapabilities) (taskType : TaskType) : Nat :=
  let preferences := TASK_TO_MODEL_PREFERENCES taskType
  let strengthScore :=
    match preferences.strengths with
    | some prefStrengths =>
      (model.strengths.filter (fun s => prefStrengths.contains s)).length * 3
    | none => 0
  let performanceScore :=
    match preferences.performance with
    | some p =>
      (if p.quality = model.performance.quality then 2 else 0) +
        (if p.speed = model.performance.speed then 1 else 0)
    | none => 0
  strengthScore + performanceScore

/-- Embedding of the catalog's `recommendModel`: filter the catalog to the
available set, score, stable-sort descending, return the top (or none). -/
def recommendModel (taskType : TaskType) (availableModels : List String) :
    Option ModelCapabilities :=
  let candidates := MODEL_CATALOG.filter (fun model => availableModels.contains model.name)
  if candidates.isEmpty then none
  else
    let scored := candidates.map (fun model => (model, scoreModelForTask model taskType))
    let sorted := List.insertionSort (fun a b => b.2 ≤ a.2) scored
    sorted.head?.map Prod.fst

/-- Selection mode of the user preferences. -/
inductive SelectionMode where
  | auto
  | manual
deriving Repr, DecidableEq

/-- User preferences of a `ModelSelectionContext`. -/
structure UserPreferences where
  mode : SelectionMode
  preferredModel : Option String
  allowFallback : Option Bool
  showRecommendations : Option Bool
deriving Repr, DecidableEq

/-- Embedding of `ModelSelectionContext`. -/
structure ModelSelectionContext where
  prompt : String
  projectContext : Option ProjectContext
  userPreferences : Option UserPreferences
  availableModels : Option (List String)
deriving Repr, DecidableEq

/-- Embedding of `ModelRecommendation`. -/
structure ModelRecommendation where
  model : ModelCapabilities
  taskType : TaskType
  confidence : ℚ
  reasoning : String
  alternatives : List ModelCapabilities
deriving Repr, DecidableEq

/-- The string the wire format and template literals use for a task type. -/
def taskTypeName : TaskType → String
  | .code_generation => "code_generation"
  | .code_review => "code_review"
  | .debugging => "debugging"
  | .documentation => "documentation"
  | .general_chat => "general_chat"
  | .file_analysis => "file_analysis"
  | .project_planning => "project_planning"
  | .quick_questions => "quick_questions"
  | .complex_reasoning => "complex_reasoning"
  | .creative_writing => "creative_writing"

/-- Embedding of `ModelSelectionService.getTaskPreferences`.  The source
duplicates the catalog's preference table verbatim ("duplicated from
modelCatalog for encapsulation"), so the embedding reuses the same
table. -/
def ModelSelectionService.getTaskPreferences (taskType : TaskType) : TaskPreferences :=
  TASK_TO_MODEL_PREFERENCES taskType

/-- Embedding of `ModelSelectionService.scoreModelForTask`: identical
formula to the catalog's scorer, reading the service's preference
table. -/
def ModelSelectionService.scoreModelForTask (model : ModelCapabilities)
    (taskType : TaskType) : Nat :=
  let preferences := ModelSelectionService.getTaskPreferences taskType
  let strengthScore :=
    match preferences.strengths with
    | some prefStrengths =>
      (model.strengths.filter (fun s => prefStrengths.contains s)).length * 3
    | none => 0
  let performanceScore :=
    match preferences.performance with
    | some p =>
      (if p.quality = model.performance.quality then 2 else 0) +
        (if p.speed = model.performance.speed then 1 else 0)
    | none => 0
  strengthScore + performanceScore

/-- Embedding of `ModelSelectionService.getAlternatives`: catalog entries
other than the selection that are available, scored, sorted descending,
top two. -/
def ModelSelectionService.getAlternatives (selectedModel : ModelCapabilities)
    (taskType : TaskType) (availableModels : List String) : List ModelCapabilities :=
  let filtered := MODEL_CATALOG.filter (fun m =>
    (m.name != selectedModel.name) && availableModels.contains m.name)
  let scored := filtered.map (fun model =>
    (model, ModelSelectionService.scoreModelForTask model taskType))
  ((List.insertionSort (fun a b => b.2 ≤ a.2) scored).take 2).map Prod.fst

/-- Embedding of `ModelSelectionService.generateReasoning`: collects
human-readable reasons and joins them with ", ", with a generic default
when no reason applies. -/
def ModelSelectionService.generateReasoning (model : ModelCapabilities)
    (taskType : TaskType) (context : ModelSelectionContext) : String :=
  let taskReasons : List String :=
    match taskType with
    | .code_generation =>
      if model.strengths.contains .coding then
        [model.displayName ++ " excels at coding tasks"] else []
    | .debugging =>
      if model.strengths.contains .coding then
        [model.displayName ++ " excels at coding tasks"] else []
    | .quick_questions =>
      if model.performance.speed = .fast then
        [model.displayName ++ " provides fast responses for quick queries"] else []
    | .complex_reasoning =>
      if model.performance.quality = .excellent then
        [model.displayName ++ " offers excellent quality for complex reasoning"] else []
    | .project_planning =>
      if model.performance.quality = .excellent then
        [model.displayName ++ " offers excellent quality for complex reasoning"] else []
    | .creative_writing =>
      if model.strengths.contains .creative then
        [model.displayName ++ " is designed for creative tasks"] else []
    | _ => []
  let reasons := taskReasons ++
    (if model.performance.speed = .fast ∧ strLength context.prompt < 100 then
      ["optimized for quick responses"] else []) ++
    (if model.performance.memoryUsage = .low then
      ["efficient memory usage"] else []) ++
    (if (context.projectContext.map (fun pc => pc.hasCodeFiles)).getD false ∧
        model.strengths.contains .coding then
      ["well-suited for code projects"] else [])
  if reasons.isEmpty then
    model.displayName ++ " is a good general-purpose choice"
  else
    String.intercalate ", " reasons

/-- Embedding of `ModelSelectionService.calculateConfidence`: base 0.5,
bonuses for strength/quality/speed matches, code-file context and prompt
length, clamped at 1. -/
def ModelSelectionService.calculateConfidence (model : ModelCapabilities)
    (taskType : TaskType) (context : ModelSelectionContext) : ℚ :=
  let confidence : ℚ := 1/2
  let taskPreferences := ModelSelectionService.getTaskPreferences taskType
  let confidence :=
    match taskPreferences.strengths with
    | some prefStrengths =>
      confidence +
        ((model.strengths.filter (fun s => prefStrengths.contains s)).length : ℚ) * (3/20)
    | none => confidence
  let confidence :=
    match taskPreferences.performance with
    | some p =>
      let afterQuality :=
        if p.quality = model.performance.quality then confidence + 1/10 else confidence
      if p.speed = model.performance.speed then afterQuality + 1/20 else afterQuality
    | none => confidence
  let confidence :=
    if (context.projectContext.map (fun pc => pc.hasCodeFiles)).getD false ∧
        model.strengths.contains .coding then
      confidence + 1/10
    else confidence
  let confidence :=
    if strLength context.prompt > 500 ∧ model.performance.quality = .excellent then
      confidence + 1/10
    else if strLength context.prompt < 100 ∧ model.performance.speed = .fast then
      confidence + 1/10
    else confidence
  min confidence 1

/-- The recommendation record built on the manual-override path. -/
def ModelSelectionService.manualResult (preferredModel : ModelCapabilities)
    (taskType : TaskType) (availableModels : List String) : ModelRecommendation :=
  { model := preferredModel
  , taskType := taskType
  , confidence := 1
  , reasoning := "Using your preferred model: " ++ preferredModel.displayName
  , alternatives := ModelSelectionService.getAlternatives preferredModel taskType availableModels }

/-- The recommendation record built on the fallback path. -/
def ModelSelectionService.fallbackResult (fallbackModel : ModelCapabilities)
    (taskType : TaskType) : ModelRecommendation :=
  { model := fallbackModel
  , taskType := taskType
  , confidence := 3/10
  , reasoning := "No optimal model found for " ++ taskTypeName taskType ++
      ". Using fallback: " ++ fallbackModel.displayName
  , alternatives := [] }

/-- The recommendation record built on the automatic path. -/
def ModelSelectionService.autoResult (recommendedModel : ModelCapabilities)
    (taskType : TaskType) (context : ModelSelectionContext)
    (availableModels : List String) : ModelRecommendation :=
  { model := recommendedModel
  , taskType := taskType
  , confidence := ModelSelectionService.calculateConfidence recommendedModel taskType context
  , reasoning := ModelSelectionService.generateReasoning recommendedModel taskType context
  , alternatives := ModelSelectionService.getAlternatives recommendedModel taskType availableModels }

/-- The manual-override test of `ModelSelectionService.recommend`: manual
mode with a truthy preferred model (the empty string does not activate
manual mode, by JS truthiness) that is a member of the available set,
looked up in the catalog. -/
def ModelSelectionService.manualChoice (userPreferences : Option UserPreferences)
    (availableModels : List String) : Option ModelCapabilities :=
  match userPreferences with
  | some up =>
    match up.mode, up.preferredModel with
    | .manual, some preferred =>
      if (preferred != "") && availableModels.contains preferred then
        MODEL_CATALOG.find? (fun m => m.name == preferred)
      else none
    | _, _ => none
  | none => none

/-- Embedding of `ModelSelectionService.recommend` (continued): manual
override first, then the automatic path, then the fallback, and an error
when the available set has no catalog overlap. -/
def ModelSelectionService.recommend (context : ModelSelectionContext) :
    Except String ModelRecommendation :=
  let taskType := analyzeTaskType context.prompt context.projectContext
  let availableModels := context.availableModels.getD (MODEL_CATALOG.map (fun m => m.name))
  match ModelSelectionService.manualChoice context.userPreferences availableModels with
  | some preferredModel =>
    .ok (ModelSelectionService.manualResult preferredModel taskType availableModels)
  | none =>
    match recommendModel taskType availableModels with
    | some recommendedModel =>
      .ok (ModelSelectionService.autoResult recommendedModel taskType context availableModels)
    | none =>
      match MODEL_CATALOG.find? (fun m => availableModels.contains m.name) with
      | some fallbackModel =>
        .ok (ModelSelectionService.fallbackResult fallbackModel taskType)
      | none => .error "No available models found"

/-- JS-truthiness fallback on an optional string (`a || b`): the empty
string falls through like a missing value. -/
def jsOrString (o : Option String) (fallback : String) : String :=
  match o with
  | some s => if s = "" then fallback else s
  | none => fallback

/-- JS truthiness of an optional numeric counter: present and nonzero. -/
def jsTruthyNat (o : Option Nat) : Bool :=
  match o with
  | some n => n != 0
  | none => false

/-- Finish signal of a normalized candidate. -/
inductive FinishSignal where
  | STOP
deriving Repr, DecidableEq

/-- Usage metadata of a normalized response. -/
structure UsageMetadata where
  promptTokenCount : Nat
  candidatesTokenCount : Option Nat
  totalTokenCount : Nat
deriving Repr, DecidableEq

/-- One candidate of a normalized response. -/
structure Candidate where
  role : String
  text : String
  finishReason : Option FinishSignal
deriving Repr, DecidableEq

/-- Normalized response shape produced by `convertFromLocalFormat`. -/
structure GenerateContentResponseM where
  candidates : List Candidate
  usageMetadata : Option UsageMetadata
deriving Repr, DecidableEq

/-- A backend reply (non-stream response or one stream line) as consumed
by `convertFromLocalFormat`: `messageContent` models `message?.content`,
`content` the generic content field, plus done flag and counters. -/
structure LocalResponse where
  messageContent : Option String
  content : Option String
  done : Bool
  prompt_eval_count : Option Nat
  eval_count : Option Nat
deriving Repr, DecidableEq

/-- Embedding of `LocalLLMAdapter.convertFromLocalFormat`: builds the
single-candidate normalized response.  The text falls back through the
reply's fields with JS truthiness; the usage metadata is guarded by the
truthiness of `prompt_eval_count`. -/
def convertFromLocalFormat (response : LocalResponse) : GenerateContentResponseM :=
  { candidates :=
      [ { role := "model"
        , text := jsOrString response.messageContent (jsOrString response.content "")
        , finishReason := if response.done then some .STOP else none } ]
  , usageMetadata :=
      if jsTruthyNat response.prompt_eval_count then
        some { promptTokenCount := response.prompt_eval_count.getD 0
             , candidatesTokenCount := response.eval_count
             , totalTokenCount :=
                 response.prompt_eval_count.getD 0 + response.eval_count.getD 0 }
      else none }

/-- Outcome of one transport attempt, indexed by attempt number: a
response with its ok flag, or a thrown transport error.  The payload ids
let distinct attempts be told apart. -/
inductive FetchOutcome where
  | resp (ok : Bool) (id : Nat)
  | err (id : Nat)

/-- Result of the whole request-execution algorithm. -/
inductive RequestResult where
  | resp (ok : Bool) (id : Nat)
  | thrown (id : Nat)
deriving Repr, DecidableEq

/-- Result of `makeRequest` together with its observable effort: number
of fetch attempts and total fixed delay slept between them. -/
structure RequestTrace where
  result : RequestResult
  attempts : Nat
  delayMs : Nat
deriving Repr, DecidableEq

/-- Embedding of `LocalLLMAdapter.makeRequest`: issue the fetch; on a
non-ok response or a transport error with budget remaining, sleep the
fixed 1000 ms delay and retry with the budget decremented; with the
budget exhausted, return the last response as-is or rethrow the last
error. -/
def makeRequest (fetch : Nat → FetchOutcome) (attempt : Nat) : Nat → RequestTrace
  | retries + 1 =>
    match fetch attempt with
    | .resp true id => { result := .resp true id, attempts := 1, delayMs := 0 }
    | .resp false _ =>
      let t := makeRequest fetch (attempt + 1) retries
      { t with attempts := t.attempts + 1, delayMs := t.delayMs + 1000 }
    | .err _ =>
      let t := makeRequest fetch (attempt + 1) retries
      { t with attempts := t.attempts + 1, delayMs := t.delayMs + 1000 }
  | 0 =>
    match fetch attempt with
    | .resp ok id => { result := .resp ok id, attempts := 1, delayMs := 0 }
    | .err id => { result := .thrown id, attempts := 1, delayMs := 0 }

/-- The default retry budget expression `this.config.maxRetries || 3`:
an absent or zero configured value falls back to 3 by JS truthiness. -/
def defaultRetries (maxRetries : Option Nat) : Nat :=
  match maxRetries with
  | some n => if n ≠ 0 then n else 3
  | none => 3

/-- Data carried by a `ModelNotAvailableError`: the requested model name
and the installed-model list. -/
structure ModelNotAvailableError where
  modelName : String
  availableModels : List String
deriving Repr, DecidableEq

/-- The message the error constructor renders from its data. -/
def ModelNotAvailableError.message (e : ModelNotAvailableError) : String :=
  "Model \"" ++ e.modelName ++ "\" not available. Available models: " ++
    String.intercalate ", " e.availableModels

/-- Embedding of `OllamaProvider.ensureModelAvailable`: accept when some
installed name starts with the configured model id; otherwise attempt the
automatic pull (its success modeled by `pullSucceeds`); on pull failure,
fail with `ModelNotAvailableError` carrying the requested id and the
installed list. -/
def ensureModelAvailable (installedModels : List String) (configModel : String)
    (pullSucceeds : Bool) : Except ModelNotAvailableError Unit :=
  if installedModels.any (fun name => strStartsWith name configModel) then .ok ()
  else if pullSucceeds then .ok ()
  else .error { modelName := configModel, availableModels := installedModels }

/-- Split a character sequence on newline characters, keeping the final
(possibly empty) partial segment: the meaning of `buffer.split(m)` with a
one-character separator. -/
def splitNl : List Char → List (List Char)
  | [] => [[]]
  | c :: cs =>
    if c = '\n' then [] :: splitNl cs
    else
      match splitNl cs with
      | line :: restLines => (c :: line) :: restLines
      | [] => [[c]]

/-- A line that `line.trim()` maps to the empty (falsy) string. -/
def isBlankLine (line : List Char) : Bool :=
  line.all (fun c => c.isWhitespace)

/-- The inner per-read loop of `processStreamResponse`: walk the complete
lines; skip blank lines; parse each line independently (a parse failure
is logged and skipped); yield the normalized chunk; stop the whole
generator when a chunk's done flag is set.  Returns the yielded items and
whether the done flag terminated the stream. -/
def processLines (parseLine : List Char → Option LocalResponse) :
    List (List Char) → List GenerateContentResponseM × Bool
  | [] => ([], false)
  | line :: rest =>
    if isBlankLine line then processLines parseLine rest
    else
      match parseLine line with
      | none => processLines parseLine rest
      | some chunk =>
        if chunk.done then ([convertFromLocalFormat chunk], true)
        else
          let step := processLines parseLine rest
          (convertFromLocalFormat chunk :: step.1, step.2)

/-- The outer read loop of `processStreamResponse`: per transport read,
append to the buffer, split on newlines, keep the trailing partial line
buffered, process the complete lines, and stop on the done flag or when
the transport closes. -/
def processStreamChunks (parseLine : List Char → Option LocalResponse)
    (buffer : List Char) : List (List Char) → List GenerateContentResponseM
  | [] => []
  | chunk :: rest =>
    let parts := splitNl (buffer ++ chunk)
    let step := processLines parseLine parts.dropLast
    if step.2 then step.1
    else step.1 ++ processStreamChunks parseLine (parts.getLast?.getD []) rest

/-- Embedding of `OllamaProvider.processStreamResponse`: the stream of
normalized items produced from the transport's reads, starting from an
empty buffer.  `parseLine` stands for `JSON.parse` on one line. -/
def processStreamResponse (parseLine : List Char → Option LocalResponse)
    (body : List (List Char)) : List GenerateContentResponseM :=
  processStreamChunks parseLine [] body

/-- Render `n/100` the way JS prints `Math.round(x*100)/100`: strip a
trailing zero decimal, drop the point for whole numbers. -/
def renderCentis (n : Nat) : String :=
  let intPart := n / 100
  let frac := n % 100
  if frac = 0 then toString intPart
  else if frac % 10 = 0 then toString intPart ++ "." ++ toString (frac / 10)
  else if frac < 10 then toString intPart ++ ".0" ++ toString frac
  else toString intPart ++ "." ++ toString frac

/-- The unit labels of `formatBytes`. -/
def byteUnits : List String := ["Bytes", "KB", "MB", "GB", "TB"]

/-- Round `bytes / divisor` to two decimals, half up, returned in
hundredths: `Math.round(bytes / divisor * 100)` under exact
arithmetic. -/
def roundCentis (bytes divisor : Nat) : Nat :=
  (200 * bytes + divisor) / (2 * divisor)

/-- Embedding of `OllamaProvider.formatBytes`: zero is special-cased,
otherwise the unit index is `Math.floor(Math.log(bytes)/Math.log(1024))`
— the base-1024 integer logarithm under exact arithmetic — and the
scaled value is rounded to two decimals. -/
def formatBytes (bytes : Nat) : String :=
  if bytes = 0 then "0 Bytes"
  else
    let i := Nat.log 1024 bytes
    renderCentis (roundCentis bytes (1024 ^ i)) ++ " " ++ byteUnits.getD i "undefined"

/-- The claim's reading of `formatBytes`: scale through Bytes, KB, MB,
GB, TB in explicit base-1024 steps with the value rounded to two decimal
places.  Inputs at or beyond 1024^5 are outside the claimed unit range
and are mapped to the empty string here; the comparison theorem is
restricted accordingly. -/
def formatBytesClaim (bytes : Nat) : String :=
  if bytes = 0 then "0 Bytes"
  else if bytes < 1024 then renderCentis (roundCentis bytes 1) ++ " " ++ "Bytes"
  else if bytes < 1024 ^ 2 then renderCentis (roundCentis bytes (1024 ^ 1)) ++ " " ++ "KB"
  else if bytes < 1024 ^ 3 then renderCentis (roundCentis bytes (1024 ^ 2)) ++ " " ++ "MB"
  else if bytes < 1024 ^ 4 then renderCentis (roundCentis bytes (1024 ^ 3)) ++ " " ++ "GB"
  else if bytes < 1024 ^ 5 then renderCentis (roundCentis bytes (1024 ^ 4)) ++ " " ++ "TB"
  else ""

/-- Claim C2: with the default retry budget of 3 (`maxRetries || 3` with no
configured value), a backend that answers every attempt with a non-success
response makes `makeRequest` perform exactly 4 total attempts (1 initial
plus 3 retries) with the fixed 1000 ms delay before each retry, and the
failure of the last attempt is what reaches the caller. -/
theorem makeRequest_default_budget_on_persistent_failure
    (fetch : Nat → FetchOutcome) (ids : Nat → Nat)
    (h : ∀ n, fetch n = FetchOutcome.resp false (ids n)) :
    makeRequest fetch 0 (defaultRetries none) =
      { result := .resp false (ids 3), attempts := 4, delayMs := 3000 } := by
  have e0 := h 0
  have e1 := h 1
  have e2 := h 2
  have e3 := h 3
  simp [defaultRetries, makeRequest, e0, e1, e2, e3]

/-- Witness for C2 at the concrete failing backend whose attempt `n`
returns the non-ok response with id `n`. -/
theorem makeRequest_default_budget_on_persistent_failure_witness :
    makeRequest (fun n => FetchOutcome.resp false n) 0 (defaultRetries none) =
      { result := .resp false 3, attempts := 4, delayMs := 3000 } :=
  makeRequest_default_budget_on_persistent_failure
    (fun n => FetchOutcome.resp false n) (fun n => n) (fun _ => rfl)

/-- Claim C6: the model-presence guarantee.  A match is accepted when any
installed name starts with the configured id (whatever the pull oracle
would do); with no such match a successful automatic pull also succeeds;
and with no match and a failing pull the result is the
`ModelNotAvailableError` naming the requested id and carrying the full
installed-model list. -/
theorem ensureModelAvailable_guarantee :
    (∀ (installed : List String) (model : String) (pull : Bool),
      (∃ name ∈ installed, strStartsWith name model = true) →
      ensureModelAvailable installed model pull = .ok ()) ∧
    (∀ (installed : List String) (model : String),
      (¬ ∃ name ∈ installed, strStartsWith name model = true) →
      ensureModelAvailable installed model true = .ok ()) ∧
    (∀ (installed : List String) (model : String),
      (¬ ∃ name ∈ installed, strStartsWith name model = true) →
      ensureModelAvailable installed model false =
        .error { modelName := model, availableModels := installed }) := by
  refine ⟨?_, ?_, ?_⟩ <;> intro installed model
  · intro pull h
    have : installed.any (fun name => strStartsWith name model) = true :=
      List.any_eq_true.mpr h
    simp [ensureModelAvailable, this]
  · intro h
    have : installed.any (fun name => strStartsWith name model) = false := by
      rw [Bool.eq_false_iff]
      intro hc
      exact h (List.any_eq_true.mp hc)
    simp [ensureModelAvailable, this]
  · intro h
    have : installed.any (fun name => strStartsWith name model) = false := by
      rw [Bool.eq_false_iff]
      intro hc
      exact h (List.any_eq_true.mp hc)
    simp [ensureModelAvailable, this]

/-- Witness for C6: a tag-suffixed installed name accepts the base id even
with a failing pull; an absent id succeeds only through the pull; and with
a failing pull the error carries the id and the installed list. -/
theorem ensureModelAvailable_guarantee_witness :
    ensureModelAvailable ["llama3.1:latest"] "llama3.1" false = .ok () ∧
    ensureModelAvailable ["phi3:mini"] "llama3.1" true = .ok () ∧
    ensureModelAvailable ["phi3:mini"] "llama3.1" false =
      .error { modelName := "llama3.1", availableModels := ["phi3:mini"] } :=
  ⟨ensureModelAvailable_guarantee.1 ["llama3.1:latest"] "llama3.1" false
      ⟨"llama3.1:latest", by decide⟩
  , ensureModelAvailable_guarantee.2.1 ["phi3:mini"] "llama3.1" (by decide)
  , ensureModelAvailable_guarantee.2.2 ["phi3:mini"] "llama3.1" (by decide)⟩

/-- Counterexample to C7 as stated: a reply whose prompt-evaluation
counter is present with value 0 — claimed to populate the usage metadata
because the counter is present — produces no usage metadata: the source
guard is JS truthiness, not presence. -/
theorem convertFromLocalFormat_usage_presence_counterexample :
    ((convertFromLocalFormat
      { messageContent := some "X", content := none, done := true
      , prompt_eval_count := some 0, eval_count := some 5 }).usageMetadata).isSome
        = false ∧
    (Option.isSome (some 0 : Option Nat)) = true := by
  exact ⟨rfl, rfl⟩

/-- Claim C7 as amended: the usage metadata is populated if and only if
the prompt-evaluation counter is present AND nonzero (JS truthiness), and
when populated its total token count is the sum of the prompt counter and
the completion counter, each treated as 0 when missing. -/
theorem convertFromLocalFormat_usage_iff_truthy_counter :
    ∀ response : LocalResponse,
      (((convertFromLocalFormat response).usageMetadata).isSome = true ↔
        (∃ n, response.prompt_eval_count = some n ∧ n ≠ 0)) ∧
      (∀ u, (convertFromLocalFormat response).usageMetadata = some u →
        u.totalTokenCount =
          response.prompt_eval_count.getD 0 + response.eval_count.getD 0) := by
  intro response
  constructor
  · cases hp : response.prompt_eval_count with
    | none => simp [convertFromLocalFormat, jsTruthyNat, hp]
    | some n =>
      by_cases hn : n = 0
      · subst hn
        simp [convertFromLocalFormat, jsTruthyNat, hp]
      · simp [convertFromLocalFormat, jsTruthyNat, hp, hn]
  · intro u hu
    by_cases ht : jsTruthyNat response.prompt_eval_count = true
    · simp only [convertFromLocalFormat, ht, if_true, Option.some.injEq] at hu
      rw [← hu]
    · simp [convertFromLocalFormat, ht] at hu

/-- Witness for C7's amended claim at a reply with prompt counter 7 and
completion counter 5: metadata present with total 12. -/
theorem convertFromLocalFormat_usage_iff_truthy_counter_witness :
    ((convertFromLocalFormat
      { messageContent := some "X", content := none, done := true
      , prompt_eval_count := some 7, eval_count := some 5 }).usageMetadata).isSome
        = true ∧
    ({ promptTokenCount := 7, candidatesTokenCount := some 5
     , totalTokenCount := 12 } : UsageMetadata).totalTokenCount = 7 + 5 := by
  constructor
  · exact (convertFromLocalFormat_usage_iff_truthy_counter
      { messageContent := some "X", content := none, done := true
      , prompt_eval_count := some 7, eval_count := some 5 }).1.mpr
      ⟨7, rfl, by decide⟩
  · exact (convertFromLocalFormat_usage_iff_truthy_counter
      { messageContent := some "X", content := none, done := true
      , prompt_eval_count := some 7, eval_count := some 5 }).2
      { promptTokenCount := 7, candidatesTokenCount := some 5, totalTokenCount := 12 }
      rfl

/-- Claim C9: `formatBytes` maps 0 to "0 Bytes" and 1536 to "1.5 KB", and
on the whole claimed unit range (below 1024^5) it agrees with the claim's
reading: base-1024 unit steps through Bytes, KB, MB, GB, TB with the
value rounded to two decimal places. -/
theorem formatBytes_base_1024_units :
    formatBytes 0 = "0 Bytes" ∧ formatBytes 1536 = "1.5 KB" ∧
    ∀ bytes, 0 < bytes → bytes < 1024 ^ 5 →
      formatBytes bytes = formatBytesClaim bytes := by
  have hgen : ∀ bytes, 0 < bytes → bytes < 1024 ^ 5 →
      formatBytes bytes = formatBytesClaim bytes := by
    intro b hb hlt
    have hb0 : b ≠ 0 := Nat.pos_iff_ne_zero.mp hb
    have hlt' : b < 1125899906842624 := by simpa using hlt
    by_cases h1 : b < 1024
    · have hl : Nat.log 1024 b = 0 :=
        Nat.log_eq_of_pow_le_of_lt_pow (by simpa using hb) (by simpa using h1)
      simp [formatBytes, formatBytesClaim, hb0, hl, h1, byteUnits]
    · by_cases h2 : b < 1048576
      · have hl : Nat.log 1024 b = 1 :=
          Nat.log_eq_of_pow_le_of_lt_pow (by simpa using Nat.not_lt.mp h1)
            (by simpa using h2)
        simp [formatBytes, formatBytesClaim, hb0, hl, h1, h2, byteUnits]
      · by_cases h3 : b < 1073741824
        · have hl : Nat.log 1024 b = 2 :=
            Nat.log_eq_of_pow_le_of_lt_pow (by simpa using Nat.not_lt.mp h2)
              (by simpa using h3)
          simp [formatBytes, formatBytesClaim, hb0, hl, h1, h2, h3, byteUnits]
        · by_cases h4 : b < 1099511627776
          · have hl : Nat.log 1024 b = 3 :=
              Nat.log_eq_of_pow_le_of_lt_pow (by simpa using Nat.not_lt.mp h3)
                (by simpa using h4)
            simp [formatBytes, formatBytesClaim, hb0, hl, h1, h2, h3, h4, byteUnits]
          · have hl : Nat.log 1024 b = 4 :=
              Nat.log_eq_of_pow_le_of_lt_pow (by simpa using Nat.not_lt.mp h4)
                (by simpa using hlt)
            simp [formatBytes, formatBytesClaim, hb0, hl, h1, h2, h3, h4, hlt', byteUnits]
  refine ⟨rfl, ?_, hgen⟩
  rw [hgen 1536 (by norm_num) (by norm_num)]
  decide

/-- Witness for C9's range-restricted conjunct at 1536 bytes. -/
theorem formatBytes_base_1024_units_witness :
    0 < 1536 ∧ 1536 < 1024 ^ 5 ∧ formatBytes 1536 = formatBytesClaim 1536 :=
  ⟨by norm_num, by norm_num,
    formatBytes_base_1024_units.2.2 1536 (by norm_num) (by norm_num)⟩

/-- Splitting a newline-free segment followed by a newline peels off that
segment as one complete line. -/
theorem splitNl_append (l1 rest : List Char) (h : '\n' ∉ l1) :
    splitNl (l1 ++ '\n' :: rest) = l1 :: splitNl rest := by
  induction l1 with
  | nil => simp [splitNl]
  | cons c cs ih =>
    have hc : ¬(c = '\n') := fun e => h (by simp [e])
    have h' : '\n' ∉ cs := fun m => h (List.mem_cons_of_mem _ m)
    simp [splitNl, hc, ih h']

/-- Claim C5: the streaming parser.  (1) A body of two newline-terminated
parseable lines, the first with done:false and the second with done:true,
yields exactly the two normalized items and then stops.  (2) A first line
that fails to parse is skipped without aborting: only the second item is
yielded.  (3) A done:true chunk terminates the stream: later lines are
never yielded.  (4) The stream also terminates when the transport closes
with nothing read. -/
theorem processStreamResponse_two_lines_and_skip :
    (∀ (parseLine : List Char → Option LocalResponse) (l1 l2 : List Char)
        (c1 c2 : LocalResponse),
      '\n' ∉ l1 → '\n' ∉ l2 →
      isBlankLine l1 = false → isBlankLine l2 = false →
      parseLine l1 = some c1 → c1.done = false →
      parseLine l2 = some c2 → c2.done = true →
      processStreamResponse parseLine [l1 ++ '\n' :: (l2 ++ ['\n'])] =
        [convertFromLocalFormat c1, convertFromLocalFormat c2]) ∧
    (∀ (parseLine : List Char → Option LocalResponse) (l1 l2 : List Char)
        (c2 : LocalResponse),
      '\n' ∉ l1 → '\n' ∉ l2 →
      isBlankLine l2 = false →
      parseLine l1 = none →
      parseLine l2 = some c2 → c2.done = true →
      processStreamResponse parseLine [l1 ++ '\n' :: (l2 ++ ['\n'])] =
        [convertFromLocalFormat c2]) ∧
    (∀ (parseLine : List Char → Option LocalResponse) (l1 l2 : List Char)
        (c1 : LocalResponse),
      '\n' ∉ l1 → '\n' ∉ l2 →
      isBlankLine l1 = false →
      parseLine l1 = some c1 → c1.done = true →
      processStreamResponse parseLine [l1 ++ '\n' :: (l2 ++ ['\n'])] =
        [convertFromLocalFormat c1]) ∧
    (∀ parseLine : List Char → Option LocalResponse,
      processStreamResponse parseLine [] = []) := by
  refine ⟨?_, ?_, ?_, fun _ => rfl⟩
  · intro parseLine l1 l2 c1 c2 hn1 hn2 hb1 hb2 hp1 hd1 hp2 hd2
    show processStreamChunks parseLine [] [l1 ++ '\n' :: (l2 ++ ['\n'])] = _
    simp only [processStreamChunks, List.nil_append]
    rw [splitNl_append _ _ hn1, splitNl_append _ _ hn2]
    simp [splitNl, processLines, hb1, hb2, hp1, hp2, hd1, hd2]
  · intro parseLine l1 l2 c2 hn1 hn2 hb2 hp1 hp2 hd2
    show processStreamChunks parseLine [] [l1 ++ '\n' :: (l2 ++ ['\n'])] = _
    simp only [processStreamChunks, List.nil_append]
    rw [splitNl_append _ _ hn1, splitNl_append _ _ hn2]
    by_cases hb1 : isBlankLine l1 = true
    · simp [splitNl, processLines, hb1, hb2, hp1, hp2, hd2]
    · simp [splitNl, processLines, Bool.eq_false_iff.mpr hb1, hb2, hp1, hp2, hd2]
  · intro parseLine l1 l2 c1 hn1 hn2 hb1 hp1 hd1
    show processStreamChunks parseLine [] [l1 ++ '\n' :: (l2 ++ ['\n'])] = _
    simp only [processStreamChunks, List.nil_append]
    rw [splitNl_append _ _ hn1, splitNl_append _ _ hn2]
    simp [splitNl, processLines, hb1, hp1, hd1]

/-- Witness for C5 at a concrete two-line body with a concrete parser. -/
theorem processStreamResponse_two_lines_and_skip_witness :
    processStreamResponse
      (fun l =>
        if l = ['a'] then
          some { messageContent := some "hi", content := none, done := false
               , prompt_eval_count := none, eval_count := none }
        else if l = ['b'] then
          some { messageContent := some "there", content := none, done := true
               , prompt_eval_count := none, eval_count := none }
        else none)
      [['a'] ++ '\n' :: (['b'] ++ ['\n'])] =
      [convertFromLocalFormat
        { messageContent := some "hi", content := none, done := false
        , prompt_eval_count := none, eval_count := none }
      , convertFromLocalFormat
        { messageContent := some "there", content := none, done := true
        , prompt_eval_count := none, eval_count := none }] :=
  processStreamResponse_two_lines_and_skip.1
    (fun l =>
      if l = ['a'] then
        some { messageContent := some "hi", content := none, done := false
             , prompt_eval_count := none, eval_count := none }
      else if l = ['b'] then
        some { messageContent := some "there", content := none, done := true
             , prompt_eval_count := none, eval_count := none }
      else none)
    ['a'] ['b'] _ _
    (by decide) (by decide) (by decide) (by decide)
    (by decide) (by decide) (by decide) (by decide)

/-- The claim's reading of the confidence model, as one flat clamped sum:
base 0.5, plus 0.15 per strength tag matching the task's preferred
strengths, plus 0.1 for a quality match, plus 0.05 for a speed match,
plus 0.1 for code files with a coding strength, plus the two mutually
exclusive prompt-length bonuses, clamped at 1. -/
def claimedConfidence (model : ModelCapabilities) (taskType : TaskType)
    (context : ModelSelectionContext) : ℚ :=
  min
    (1/2 +
      ((model.strengths.filter (fun s =>
        (((ModelSelectionService.getTaskPreferences taskType).strengths).getD []).contains s)).length : ℚ)
          * (3/20) +
      (if ((ModelSelectionService.getTaskPreferences taskType).performance).map
            (fun p => p.quality) = some model.performance.quality then (1:ℚ)/10 else 0) +
      (if ((ModelSelectionService.getTaskPreferences taskType).performance).map
            (fun p => p.speed) = some model.performance.speed then (1:ℚ)/20 else 0) +
      (if (context.projectContext.map (fun pc => pc.hasCodeFiles)).getD false ∧
            model.strengths.contains .coding then (1:ℚ)/10 else 0) +
      (if strLength context.prompt > 500 ∧ model.performance.quality = .excellent then (1:ℚ)/10
       else if strLength context.prompt < 100 ∧ model.performance.speed = .fast then (1:ℚ)/10
       else 0))
    1

set_option maxHeartbeats 1000000 in
/-- The sequentially-accumulated confidence of the source equals the flat
clamped sum of the claim. -/
theorem calcConf_eq_claimed (model : ModelCapabilities) (taskType : TaskType)
    (context : ModelSelectionContext) :
    ModelSelectionService.calculateConfidence model taskType context =
      claimedConfidence model taskType context := by
  cases taskType <;>
    simp only [ModelSelectionService.calculateConfidence, claimedConfidence,
      ModelSelectionService.getTaskPreferences, TASK_TO_MODEL_PREFERENCES,
      Option.map_some', Option.getD_some, Option.some.injEq] <;>
    split_ifs <;>
    (refine congrArg (fun x => min x 1) ?_; ring)

/-- Claim C3: on the automatic recommendation path the computed
confidence equals 0.5 plus 0.15 per matching strength tag, plus 0.1 for a
quality match, plus 0.05 for a speed match, plus 0.1 for code files with
a coding strength, plus the two mutually exclusive prompt-length bonuses,
clamped to a maximum of 1.0 — for every model, task type and context. -/
theorem calculateConfidence_matches_claimed_formula :
    ∀ (model : ModelCapabilities) (taskType : TaskType)
      (context : ModelSelectionContext),
      ModelSelectionService.calculateConfidence model taskType context =
        claimedConfidence model taskType context :=
  fun model taskType context => calcConf_eq_claimed model taskType context

/-- Arithmetic core of the confidence bounds: one half plus non-negative
bonuses, clamped at 1, stays within the interval from one half to 1. -/
theorem half_plus_nonneg_min_bounds (a b c d e : ℚ) (ha : 0 ≤ a) (hb : 0 ≤ b)
    (hc : 0 ≤ c) (hd : 0 ≤ d) (he : 0 ≤ e) :
    1/2 ≤ min (1/2 + a + b + c + d + e) 1 ∧ min (1/2 + a + b + c + d + e) 1 ≤ 1 :=
  ⟨le_min (by linarith) (by norm_num), min_le_right _ _⟩

/-- The flat claimed confidence lies between one half and 1. -/
theorem claimedConfidence_bounds (model : ModelCapabilities) (taskType : TaskType)
    (context : ModelSelectionContext) :
    1/2 ≤ claimedConfidence model taskType context ∧
      claimedConfidence model taskType context ≤ 1 := by
  unfold claimedConfidence
  exact half_plus_nonneg_min_bounds _ _ _ _ _
    (by positivity)
    (by split_ifs <;> norm_num)
    (by split_ifs <;> norm_num)
    (by split_ifs <;> norm_num)
    (by split_ifs <;> norm_num)

/-- The source's computed confidence lies between one half and 1. -/
theorem calculateConfidence_bounds (model : ModelCapabilities) (taskType : TaskType)
    (context : ModelSelectionContext) :
    1/2 ≤ ModelSelectionService.calculateConfidence model taskType context ∧
      ModelSelectionService.calculateConfidence model taskType context ≤ 1 := by
  rw [calcConf_eq_claimed]
  exact claimedConfidence_bounds model taskType context

/-- Claim C10: `calculateConfidence` always returns a value in
[0.5, 1.0] — it starts from base 0.5 and adds only non-negative bonuses
before the clamp — so every automatic recommendation (the record built on
the non-manual, non-fallback path) reports confidence at least 0.5,
strictly above the fallback path's fixed 0.3. -/
theorem calculateConfidence_half_floor_and_auto_above_fallback :
    (∀ (model : ModelCapabilities) (taskType : TaskType)
        (context : ModelSelectionContext),
      1/2 ≤ ModelSelectionService.calculateConfidence model taskType context ∧
        ModelSelectionService.calculateConfidence model taskType context ≤ 1) ∧
    (∀ (model : ModelCapabilities) (taskType : TaskType)
        (context : ModelSelectionContext) (availableModels : List String),
      1/2 ≤ (ModelSelectionService.autoResult model taskType context availableModels).confidence ∧
      (3/10 : ℚ) <
        (ModelSelectionService.autoResult model taskType context availableModels).confidence) := by
  refine ⟨calculateConfidence_bounds, ?_⟩
  intro model taskType context availableModels
  have h := calculateConfidence_bounds model taskType context
  exact ⟨h.1, lt_of_lt_of_le (by norm_num) h.1⟩

/-- Claim C8: every confidence produced by `recommend` lies in [0,1]; the
manual-override record carries exactly 1.0, the fallback record exactly
0.3, and the automatic path's value is the clamped computation, which
never leaves [0,1]. -/
theorem recommend_confidence_in_unit_interval :
    (∀ (context : ModelSelectionContext) (rec : ModelRecommendation),
      ModelSelectionService.recommend context = .ok rec →
      0 ≤ rec.confidence ∧ rec.confidence ≤ 1) ∧
    (∀ (model : ModelCapabilities) (taskType : TaskType)
        (availableModels : List String),
      (ModelSelectionService.manualResult model taskType availableModels).confidence = 1) ∧
    (∀ (model : ModelCapabilities) (taskType : TaskType),
      (ModelSelectionService.fallbackResult model taskType).confidence = 3/10) ∧
    (∀ (model : ModelCapabilities) (taskType : TaskType)
        (context : ModelSelectionContext),
      0 ≤ ModelSelectionService.calculateConfidence model taskType context ∧
        ModelSelectionService.calculateConfidence model taskType context ≤ 1) := by
  have hcalc : ∀ (model : ModelCapabilities) (taskType : TaskType)
      (context : ModelSelectionContext),
      0 ≤ ModelSelectionService.calculateConfidence model taskType context ∧
        ModelSelectionService.calculateConfidence model taskType context ≤ 1 := by
    intro model taskType context
    have h := calculateConfidence_bounds model taskType context
    exact ⟨le_trans (by norm_num) h.1, h.2⟩
  refine ⟨?_, fun _ _ _ => rfl, fun _ _ => rfl, hcalc⟩
  intro context rec h
  simp only [ModelSelectionService.recommend] at h
  split at h
  · simp only [Except.ok.injEq] at h
    subst h
    exact ⟨by norm_num [ModelSelectionService.manualResult],
           by norm_num [ModelSelectionService.manualResult]⟩
  · split at h
    · simp only [Except.ok.injEq] at h
      subst h
      exact hcalc _ _ _
    · split at h
      · simp only [Except.ok.injEq] at h
        subst h
        exact ⟨by norm_num [ModelSelectionService.fallbackResult],
               by norm_num [ModelSelectionService.fallbackResult]⟩
      · exact absurd h (by simp)

/-- Witness for C8's quantified conjunct on the result of `recommend`, at
a manual-mode context whose preferred model is installed. -/
theorem recommend_confidence_in_unit_interval_witness :
    ModelSelectionService.recommend
      { prompt := "hello", projectContext := none
      , userPreferences := some
          { mode := .manual, preferredModel := some "qwen3-coder:latest"
          , allowFallback := none, showRecommendations := none }
      , availableModels := some ["qwen3-coder:latest"] } =
      .ok (ModelSelectionService.manualResult
        { name := "qwen3-coder:latest"
        , displayName := "Qwen3 Coder"
        , sizeGB := 18
        , performance := { speed := .medium, quality := .excellent, memoryUsage := .high }
        , strengths := [.coding, .analysis, .reasoning]
        , description := "Specialized coding model with excellent programming capabilities"
        , useCases := [ "Code generation and refactoring", "Complex debugging"
                      , "Code architecture planning", "Technical documentation" ] }
        TaskType.general_chat ["qwen3-coder:latest"]) ∧
    0 ≤ (ModelSelectionService.manualResult
        { name := "qwen3-coder:latest"
        , displayName := "Qwen3 Coder"
        , sizeGB := 18
        , performance := { speed := .medium, quality := .excellent, memoryUsage := .high }
        , strengths := [.coding, .analysis, .reasoning]
        , description := "Specialized coding model with excellent programming capabilities"
        , useCases := [ "Code generation and refactoring", "Complex debugging"
                      , "Code architecture planning", "Technical documentation" ] }
        TaskType.general_chat ["qwen3-coder:latest"]).confidence ∧
    (ModelSelectionService.manualResult
        { name := "qwen3-coder:latest"
        , displayName := "Qwen3 Coder"
        , sizeGB := 18
        , performance := { speed := .medium, quality := .excellent, memoryUsage := .high }
        , strengths := [.coding, .analysis, .reasoning]
        , description := "Specialized coding model with excellent programming capabilities"
        , useCases := [ "Code generation and refactoring", "Complex debugging"
                      , "Code architecture planning", "Technical documentation" ] }
        TaskType.general_chat ["qwen3-coder:latest"]).confidence ≤ 1 := by
  refine ⟨rfl, ?_⟩
  exact recommend_confidence_in_unit_interval.1
    { prompt := "hello", projectContext := none
    , userPreferences := some
        { mode := .manual, preferredModel := some "qwen3-coder:latest"
        , allowFallback := none, showRecommendations := none }
    , availableModels := some ["qwen3-coder:latest"] }
    (ModelSelectionService.manualResult
      { name := "qwen3-coder:latest"
      , displayName := "Qwen3 Coder"
      , sizeGB := 18
      , performance := { speed := .medium, quality := .excellent, memoryUsage := .high }
      , strengths := [.coding, .analysis, .reasoning]
      , description := "Specialized coding model with excellent programming capabilities"
      , useCases := [ "Code generation and refactoring", "Complex debugging"
                    , "Code architecture planning", "Technical documentation" ] }
      TaskType.general_chat ["qwen3-coder:latest"])
    rfl

/-- Structural invariants of `getAlternatives`: at most two entries, none
carrying the selected model's name, sorted descending by task score. -/
theorem getAlternatives_spec (sel : ModelCapabilities) (t : TaskType)
    (avail : List String) :
    (ModelSelectionService.getAlternatives sel t avail).length ≤ 2 ∧
    (∀ x ∈ ModelSelectionService.getAlternatives sel t avail, x.name ≠ sel.name) ∧
    List.Pairwise (fun a b => ModelSelectionService.scoreModelForTask b t ≤
      ModelSelectionService.scoreModelForTask a t)
      (ModelSelectionService.getAlternatives sel t avail) := by
  simp only [ModelSelectionService.getAlternatives]
  refine ⟨?_, ?_, ?_⟩
  · simp only [List.length_map, List.length_take]
    exact inf_le_left
  · intro x hx
    rcases List.mem_map.mp hx with ⟨p, hp, rfl⟩
    have hp' := (List.perm_insertionSort (fun a b : ModelCapabilities × Nat => b.2 ≤ a.2)
      _).mem_iff.mp (List.mem_of_mem_take hp)
    rcases List.mem_map.mp hp' with ⟨m, hm, rfl⟩
    have hcond := (List.mem_filter.mp hm).2
    simp only [Bool.and_eq_true, bne_iff_ne] at hcond
    exact hcond.1
  · haveI : IsTotal (ModelCapabilities × Nat) (fun a b => b.2 ≤ a.2) :=
      ⟨fun a b => Nat.le_total b.2 a.2⟩
    haveI : IsTrans (ModelCapabilities × Nat) (fun a b => b.2 ≤ a.2) :=
      ⟨fun _ _ _ h1 h2 => le_trans h2 h1⟩
    have hs := List.sorted_insertionSort (fun a b : ModelCapabilities × Nat => b.2 ≤ a.2)
      ((MODEL_CATALOG.filter (fun m =>
        (m.name != sel.name) && avail.contains m.name)).map (fun model =>
          (model, ModelSelectionService.scoreModelForTask model t)))
    have htake := List.Pairwise.sublist (List.take_sublist 2 _) hs
    have hmem : ∀ p ∈ (List.insertionSort (fun a b : ModelCapabilities × Nat => b.2 ≤ a.2)
        ((MODEL_CATALOG.filter (fun m =>
          (m.name != sel.name) && avail.contains m.name)).map (fun model =>
            (model, ModelSelectionService.scoreModelForTask model t)))).take 2,
        p.2 = ModelSelectionService.scoreModelForTask p.1 t := by
      intro p hp
      have hp' := (List.perm_insertionSort (fun a b : ModelCapabilities × Nat => b.2 ≤ a.2)
        _).mem_iff.mp (List.mem_of_mem_take hp)
      rcases List.mem_map.mp hp' with ⟨m, _, rfl⟩
      rfl
    refine List.pairwise_map.mpr ?_
    refine List.Pairwise.imp_of_mem ?_ htake
    intro a b ha hb hr
    rw [← hmem a ha, ← hmem b hb]
    exact hr

/-- A model selected by `recommendModel` is drawn from the available
set. -/
theorem recommendModel_contains (t : TaskType) (avail : List String)
    (m : ModelCapabilities) (h : recommendModel t avail = some m) :
    avail.contains m.name = true := by
  simp only [recommendModel] at h
  split at h
  · exact absurd h (by simp)
  · rcases Option.map_eq_some'.mp h with ⟨p, hp, rfl⟩
    have hp' := (List.perm_insertionSort (fun a b : ModelCapabilities × Nat => b.2 ≤ a.2)
      _).mem_iff.mp (List.mem_of_mem_head? hp)
    rcases List.mem_map.mp hp' with ⟨md, hmd, rfl⟩
    exact (List.mem_filter.mp hmd).2

/-- A model selected by the manual-override test is drawn from the
available set. -/
theorem manualChoice_contains (up : Option UserPreferences) (avail : List String)
    (m : ModelCapabilities) (h : ModelSelectionService.manualChoice up avail = some m) :
    avail.contains m.name = true := by
  unfold ModelSelectionService.manualChoice at h
  split at h
  · split at h
    · split at h
      · rename_i hcond
        have hfind := List.find?_some h
        simp only [beq_iff_eq] at hfind
        simp only [Bool.and_eq_true] at hcond
        rw [hfind]
        exact hcond.2
      · exact absurd h (by simp)
    · exact absurd h (by simp)
  · exact absurd h (by simp)

/-- Claim C4: whenever the caller supplies an available-model set, every
recommendation `recommend` returns — manual, automatic or fallback — has
a selected model whose name is a member of that set, and an alternatives
list of length at most 2 that never contains the selected model and is
sorted in descending order of the task score. -/
theorem recommend_selected_available_alternatives_invariant :
    ∀ (context : ModelSelectionContext) (avail : List String)
      (rec : ModelRecommendation),
      context.availableModels = some avail →
      ModelSelectionService.recommend context = .ok rec →
      rec.model.name ∈ avail ∧
      rec.alternatives.length ≤ 2 ∧
      rec.model ∉ rec.alternatives ∧
      List.Pairwise (fun a b => ModelSelectionService.scoreModelForTask b rec.taskType ≤
        ModelSelectionService.scoreModelForTask a rec.taskType) rec.alternatives := by
  intro context avail rec hav h
  simp only [ModelSelectionService.recommend, hav, Option.getD_some] at h
  split at h
  · rename_i m hm
    simp only [Except.ok.injEq] at h
    subst h
    have hc := manualChoice_contains _ _ _ hm
    have hspec := getAlternatives_spec m
      (analyzeTaskType context.prompt context.projectContext) avail
    refine ⟨List.elem_iff.mp hc, hspec.1, ?_, hspec.2.2⟩
    intro hmem
    exact hspec.2.1 _ hmem rfl
  · split at h
    · rename_i m hm
      simp only [Except.ok.injEq] at h
      subst h
      have hc := recommendModel_contains _ _ _ hm
      have hspec := getAlternatives_spec m
        (analyzeTaskType context.prompt context.projectContext) avail
      refine ⟨List.elem_iff.mp hc, hspec.1, ?_, hspec.2.2⟩
      intro hmem
      exact hspec.2.1 _ hmem rfl
    · split at h
      · rename_i m hm
        simp only [Except.ok.injEq] at h
        subst h
        have hc : avail.contains m.name = true := by
          simpa using List.find?_some hm
        refine ⟨List.elem_iff.mp hc, ?_, ?_, ?_⟩
        · simp [ModelSelectionService.fallbackResult]
        · simp [ModelSelectionService.fallbackResult]
        · simp [ModelSelectionService.fallbackResult]
      · exact absurd h (by simp)

/-- Witness for C4 on the automatic path with a supplied available set of
two installed models. -/
theorem recommend_selected_available_alternatives_invariant_witness :
    ({ prompt := "hello", projectContext := none, userPreferences := none
     , availableModels := some ["phi3:mini", "tinyllama:latest"] } :
        ModelSelectionContext).availableModels =
      some ["phi3:mini", "tinyllama:latest"] ∧
    ModelSelectionService.recommend
      { prompt := "hello", projectContext := none, userPreferences := none
      , availableModels := some ["phi3:mini", "tinyllama:latest"] } =
      .ok (ModelSelectionService.autoResult
        { name := "phi3:mini"
        , displayName := "Phi-3 Mini"
        , sizeGB := 11/5
        , performance := { speed := .fast, quality := .good, memoryUsage := .low }
        , strengths := [.lightweight, .conversation, .reasoning]
        , description := "Compact but capable model, excellent for quick responses"
        , useCases := [ "Quick questions and answers", "Basic code assistance"
                      , "Fast iterations", "Low-resource environments" ] }
        TaskType.general_chat
        { prompt := "hello", projectContext := none, userPreferences := none
        , availableModels := some ["phi3:mini", "tinyllama:latest"] }
        ["phi3:mini", "tinyllama:latest"]) ∧
    ((ModelSelectionService.autoResult
        { name := "phi3:mini"
        , displayName := "Phi-3 Mini"
        , sizeGB := 11/5
        , performance := { speed := .fast, quality := .good, memoryUsage := .low }
        , strengths := [.lightweight, .conversation, .reasoning]
        , description := "Compact but capable model, excellent for quick responses"
        , useCases := [ "Quick questions and answers", "Basic code assistance"
                      , "Fast iterations", "Low-resource environments" ] }
        TaskType.general_chat
        { prompt := "hello", projectContext := none, userPreferences := none
        , availableModels := some ["phi3:mini", "tinyllama:latest"] }
        ["phi3:mini", "tinyllama:latest"]).model.name ∈
          ["phi3:mini", "tinyllama:latest"] ∧
      (ModelSelectionService.autoResult
        { name := "phi3:mini"
        , displayName := "Phi-3 Mini"
        , sizeGB := 11/5
        , performance := { speed := .fast, quality := .good, memoryUsage := .low }
        , strengths := [.lightweight, .conversation, .reasoning]
        , description := "Compact but capable model, excellent for quick responses"
        , useCases := [ "Quick questions and answers", "Basic code assistance"
                      , "Fast iterations", "Low-resource environments" ] }
        TaskType.general_chat
        { prompt := "hello", projectContext := none, userPreferences := none
        , availableModels := some ["phi3:mini", "tinyllama:latest"] }
        ["phi3:mini", "tinyllama:latest"]).alternatives.length ≤ 2) := by
  refine ⟨rfl, rfl, ?_⟩
  have h := recommend_selected_available_alternatives_invariant
    { prompt := "hello", projectContext := none, userPreferences := none
    , availableModels := some ["phi3:mini", "tinyllama:latest"] }
    ["phi3:mini", "tinyllama:latest"]
    (ModelSelectionService.autoResult
      { name := "phi3:mini"
      , displayName := "Phi-3 Mini"
      , sizeGB := 11/5
      , performance := { speed := .fast, quality := .good, memoryUsage := .low }
      , strengths := [.lightweight, .conversation, .reasoning]
      , description := "Compact but capable model, excellent for quick responses"
      , useCases := [ "Quick questions and answers", "Basic code assistance"
                    , "Fast iterations", "Low-resource environments" ] }
      TaskType.general_chat
      { prompt := "hello", projectContext := none, userPreferences := none
      , availableModels := some ["phi3:mini", "tinyllama:latest"] }
      ["phi3:mini", "tinyllama:latest"])
    rfl rfl
  exact ⟨h.1, h.2.1⟩
